import Mathlib

/-!
Verification of the jabberwocky container manager against its specification.

The development shallowly embeds the parts of the Python sources that the
checked properties concern:

* `src/containers/container_config.py` — `ContainerConfig.__init__`,
  `ContainerConfig._convert_legacy`, `ContainerConfig.to_dict`;
* `src/containers/container.py` — the retry loop of `Container.start`;
* `src/containers/port_allocation.py` — `allocate_port`;
* `src/containers/container_manager_server.py` — `_SocketConnection._start`
  and `_SocketConnection._install` (with `container_extras.install_container`);
* `src/containers/container_manager_client.py` — `_RunCommandClient._recv`;
* `src/system/ssh.py` — `SSHInterface.update_hostkey`.

Python scalar values are modelled by the inductive `PyVal`; configuration
dictionaries by the structure `PyDict` whose optional fields are the keys the
embedded code reads (a `none` field means the key is absent).  Exceptions are
modelled by `Except` with the error type `PyError`.
-/

set_option autoImplicit false

namespace Jabberwocky

/-- Python values as they arise from `json.load`ed configuration files and the
literals of `container_config.py`: `None`, `bool`, `int`, `str`, lists, and
string-keyed dictionaries (used only by the `arguments` value of the legacy
literal).  Floats and other types never reach the embedded code paths. -/
inductive PyVal where
  | vnone : PyVal
  | vbool (b : Bool) : PyVal
  | vint (n : Int) : PyVal
  | vstr (s : String) : PyVal
  | vlist (xs : List PyVal) : PyVal
  | vdict (es : List (String × PyVal)) : PyVal

/-- Python `isinstance(v, int)`: `True` for `int` and for `bool` (a subclass
of `int`). -/
def pyIsInt : PyVal → Bool
  | PyVal.vint _ => true
  | PyVal.vbool _ => true
  | _ => false

/-- Python `isinstance(v, str)`. -/
def pyIsStr : PyVal → Bool
  | PyVal.vstr _ => true
  | _ => false

/-- Python `isinstance(v, list)`. -/
def pyIsList : PyVal → Bool
  | PyVal.vlist _ => true
  | _ => false

/-- Python `isinstance(v, bool)`. -/
def pyIsBool : PyVal → Bool
  | PyVal.vbool _ => true
  | _ => false

/-- The integer value of an int-like Python value (`True == 1`, `False == 0`);
junk `0` on other constructors, which the embedded code never consults. -/
def pyToInt : PyVal → Int
  | PyVal.vint n => n
  | PyVal.vbool b => if b then 1 else 0
  | _ => 0

/-- Python truthiness (`bool(v)`), as used by `x or default`. -/
def pyTruthy : PyVal → Bool
  | PyVal.vnone => false
  | PyVal.vbool b => b
  | PyVal.vint n => n != 0
  | PyVal.vstr s => !s.isEmpty
  | PyVal.vlist xs => !xs.isEmpty
  | PyVal.vdict es => !es.isEmpty

/-- Python `a or b`. -/
def pyOr (a b : PyVal) : PyVal :=
  if pyTruthy a then a else b

/-- Python `repr(v)`.  Exact on the scalar values that reach the error
messages of the embedded code; composite values are abbreviated (their repr
only ever appears inside message text, never in control flow). -/
def pyRepr : PyVal → String
  | PyVal.vnone => ("None")
  | PyVal.vbool b => if b then ("True") else ("False")
  | PyVal.vint n => toString n
  | PyVal.vstr s => ("'") ++ s ++ "'"
  | PyVal.vlist _ => ("[...]")
  | PyVal.vdict _ => ("\x7b...\x7d")

/-- Python `str(v)` (used by f-string interpolation): identity on strings,
`repr` otherwise. -/
def pyStr : PyVal → String
  | PyVal.vstr s => s
  | v => pyRepr v

/-- Python `len(v)`: `none` models the `TypeError` raised on values without a
length. -/
def pyLen : PyVal → Option Nat
  | PyVal.vstr s => some s.length
  | PyVal.vlist xs => some xs.length
  | PyVal.vdict es => some es.length
  | _ => none

/-- Python iteration `for i in v`: characters of a string (as 1-character
strings), elements of a list, keys of a dict. -/
def pyIter : PyVal → List PyVal
  | PyVal.vstr s => s.toList.map (fun ch => PyVal.vstr ch.toString)
  | PyVal.vlist xs => xs
  | PyVal.vdict es => es.map (fun e => PyVal.vstr e.1)
  | _ => []

/-- A configuration dictionary, with one optional field per key that
`container_config.py` reads (`none` = key absent), plus `arguments` (read
only through the comparison with the legacy literal `_LEGACY_CT_CONFIG`) and
`hasOtherKeys`, true when the dictionary carries any key other than the
modelled ones (such a key can only make the legacy-literal comparison fail;
everything else ignores it).  `legacyKey` models the key `"__legacy"`. -/
structure PyDict where
  manifest : Option PyVal := none
  arch : Option PyVal := none
  hostname : Option PyVal := none
  memory : Option PyVal := none
  hddmaxsize : Option PyVal := none
  portfwd : Option PyVal := none
  password : Option PyVal := none
  username : Option PyVal := none
  legacyKey : Option PyVal := none
  arguments : Option PyVal := none
  hasOtherKeys : Bool := false

/-- Errors raised by the embedded Python code. `invalidConfig` carries the
accumulated message list of `InvalidConfigError`; `keyError` the missing key
of a Python `KeyError`; `typeError` a Python `TypeError`; `runtimeError` the
`RuntimeError` of `_RunCommandClient._recv`; `indexError` a Python
`IndexError`; `unicodeDecodeError` the `UnicodeDecodeError` of
`bytes(...).decode('utf-8')`. -/
inductive PyError where
  | invalidConfig (msgs : List String) : PyError
  | unsupportedLegacyConfig : PyError
  | keyError (key : String) : PyError
  | typeError : PyError
  | indexError : PyError
  | runtimeError : PyError
  | unicodeDecodeError : PyError
deriving DecidableEq

/-- Modelled from the spec: `SUPPORTED_ARCHS` lives in `src/globals.py`,
which is not part of the sources; section 4.6 of the spec enumerates exactly
the closed architecture set x86_64 / aarch64 / mipsel (the QEMU command-line
templates). -/
def SUPPORTED_ARCHS : List String := ["x86_64", "aarch64", "mipsel"]

/-- Modelled from the spec: `MANIFEST_VERSION` lives in `src/globals.py`,
which is not part of the sources.  The embedded code only uses it through the
predicate `0 ≤ v ≤ MANIFEST_VERSION` and emits it in `to_dict`, so every
verified property below holds independently of the concrete value; `0` is
the version the legacy upgrade emits. -/
def MANIFEST_VERSION : Nat := 0

/-- Python `v == ARGS` for the `arguments` value of the legacy literal
`_LEGACY_CT_CONFIG`, i.e. the dict
`\x7b"m": "500M", "drive": "file=hdd.qcow2,format=qcow2"\x7d`: true exactly
for a dictionary with those two entries (dict keys are unique, so two lookups
plus the length pin the key set). -/
def eqLegacyArgs : PyVal → Bool
  | PyVal.vdict es =>
    es.length == 2
      && (match es.lookup ("m") with
          | some (PyVal.vstr s) => s == ("500M")
          | _ => false)
      && (match es.lookup ("drive") with
          | some (PyVal.vstr s) => s == ("file=hdd.qcow2,format=qcow2")
          | _ => false)
  | _ => false

/-- Python `manifest == _LEGACY_CT_CONFIG`: the dictionary has exactly the
keys `arch` (value `"x86_64"`) and `arguments` (value the legacy arguments
dict) and nothing else. -/
def isLegacyCt (d : PyDict) : Bool :=
  (match d.arch with | some (PyVal.vstr s) => s == ("x86_64") | _ => false)
    && (match d.arguments with | some v => eqLegacyArgs v | none => false)
    && d.manifest.isNone && d.hostname.isNone && d.memory.isNone
    && d.hddmaxsize.isNone && d.portfwd.isNone && d.password.isNone
    && d.username.isNone && d.legacyKey.isNone && !d.hasOtherKeys

/-- The dictionary `ContainerConfig._convert_legacy` returns for the
recognized legacy literal. -/
def legacyUpgrade : PyDict where
  manifest := some (PyVal.vint 0)
  arch := some (PyVal.vstr ("x86_64"))
  memory := some (PyVal.vint 2500)
  hddmaxsize := some (PyVal.vint 25)
  hostname := some (PyVal.vstr ("debian"))
  portfwd := some (PyVal.vlist [])
  username := some (PyVal.vstr ("root"))
  password := some (PyVal.vstr ("root"))
  legacyKey := some (PyVal.vbool true)

/-- Python `version in range(0, MANIFEST_VERSION + 1)`: true for an int-like
value (bools compare equal to 0/1) between 0 and `MANIFEST_VERSION`. -/
def versionOk (v : PyVal) : Bool :=
  pyIsInt v && decide (0 ≤ pyToInt v) && decide (pyToInt v ≤ (MANIFEST_VERSION : Int))

/-- Python `v is None`. -/
def isNoneVal : PyVal → Bool
  | PyVal.vnone => true
  | _ => false

/-- The opening of `ContainerConfig.__init__`: when `manifest.get("manifest")`
is `None` the dict is passed through `_convert_legacy` (upgrade of the exact
legacy literal, `UnsupportedLegacyConfigError` otherwise — a dict carrying a
`manifest` key with value `None` has a key the literal lacks, so it never
equals the literal); otherwise an unknown version raises
`InvalidConfigError` at once. -/
def legacyStep (d : PyDict) : Except PyError PyDict :=
  match d.manifest with
  | none =>
    if isLegacyCt d then Except.ok legacyUpgrade
    else Except.error PyError.unsupportedLegacyConfig
  | some v =>
    if isNoneVal v then Except.error PyError.unsupportedLegacyConfig
    else if versionOk v then Except.ok d
    else Except.error (PyError.invalidConfig [("Unknown manifest version ") ++ pyRepr v])

/-- Python `arch in SUPPORTED_ARCHS` (list membership by `==`; only a string
can equal a string). -/
def archValid (a : PyVal) : Bool :=
  SUPPORTED_ARCHS.any (fun s => match a with | PyVal.vstr t => t == s | _ => false)

/-- The `arch` checks of `ContainerConfig.__init__`. -/
def archErrors (d : PyDict) : List String :=
  match d.arch with
  | none => [("'arch' is not an optional field.")]
  | some a =>
    if archValid a then []
    else [("'") ++ pyStr a ++ "' is not a valid architecture."]

/-- Python `re.fullmatch(r"[A-Za-z][A-Za-z0-9]\x7b2,\x7d", s)` as a Bool:
an ASCII letter followed by at least two ASCII alphanumerics. -/
def hostnameMatch (s : String) : Bool :=
  match s.toList with
  | [] => false
  | c :: cs => c.isAlpha && decide (2 ≤ cs.length) && cs.all (fun d => d.isAlphanum)

/-- The `hostname` checks of `ContainerConfig.__init__`.  The guard
`if "hostname" not in manifest: pass` has no effect; the subsequent
unconditional `manifest["hostname"]` raises `KeyError` when the key is
absent, and `re.fullmatch` raises `TypeError` on a non-string value. -/
def hostnameStep (d : PyDict) : Except PyError (List String) :=
  match d.hostname with
  | none => Except.error (PyError.keyError ("hostname"))
  | some (PyVal.vstr s) =>
    if hostnameMatch s then Except.ok []
    else Except.ok [("Invalid hostname ") ++ pyRepr (PyVal.vstr s)]
  | some _ => Except.error PyError.typeError

/-- The `memory` checks of `ContainerConfig.__init__`. -/
def memoryErrors (d : PyDict) : List String :=
  match d.memory with
  | none => [("'memory' is not an optional field.")]
  | some v => if pyIsInt v then [] else [("'memory' must be an integer.")]

/-- The `hddmaxsize` checks of `ContainerConfig.__init__`. -/
def hddmaxsizeErrors (d : PyDict) : List String :=
  match d.hddmaxsize with
  | none => [("'hddmaxsize' is not an optional field.")]
  | some v => if pyIsInt v then [] else [("'hddmaxsize' must be an integer.")]

/-- The generator `all(len(l) == 2 and all(isinstance(i, int) for i in l) for
l in portfwd)`: scanned left to right, it raises `TypeError` on an element
without a length and stops at the first failing element. -/
def pfwdShapeCheck : List PyVal → Except PyError Bool
  | [] => Except.ok true
  | l :: rest =>
    match pyLen l with
    | none => Except.error PyError.typeError
    | some n =>
      if n == 2 && (pyIter l).all pyIsInt then pfwdShapeCheck rest
      else Except.ok false

/-- One side of the per-pair port bookkeeping of `ContainerConfig.__init__`:
`if port not in range(1, 65535)` appends an invalid-port error, `elif port in
taken` appends a duplicate error, `else` adds the port to the taken set. -/
def portSideCheck (isVirtual : Bool) (x : PyVal) (taken : List Int) :
    List String × List Int :=
  let p := pyToInt x
  if ¬ (1 ≤ p ∧ p < 65535) then ([("Invalid port '") ++ pyStr x ++ "'."], taken)
  else if p ∈ taken then
    ([(if isVirtual then ("Virtual port ") else ("Host port ")) ++ pyStr x
        ++ " used more than once."], taken)
  else ([], p :: taken)

/-- The `for vport, hport in portfwd` loop of `ContainerConfig.__init__`,
threading the `vtaken` / `htaken` sets (both initialized to `\x7b22\x7d`).
Every element reaching the loop is a two-element list of int-like values, so
the fallback branch is unreachable. -/
def pfwdLoop : List PyVal → List Int → List Int → List String
  | [], _, _ => []
  | l :: rest, vt, ht =>
    match l with
    | PyVal.vlist [v, h] =>
      let rv := portSideCheck true v vt
      let rh := portSideCheck false h ht
      rv.1 ++ rh.1 ++ pfwdLoop rest rv.2 rh.2
    | _ => pfwdLoop rest vt ht

/-- The `portfwd` checks of `ContainerConfig.__init__`: absent key — no
errors; non-list value — one error; malformed entry — one error; otherwise
the per-pair loop starting from taken sets `\x7b22\x7d`. -/
def portfwdStep (d : PyDict) : Except PyError (List String) :=
  match d.portfwd with
  | none => Except.ok []
  | some (PyVal.vlist ls) =>
    match pfwdShapeCheck ls with
    | Except.error e => Except.error e
    | Except.ok true => Except.ok (pfwdLoop ls [22] [22])
    | Except.ok false => Except.ok [("The 'portfwd' argument is malformed.")]
  | some _ => Except.ok [("'portfwd' must be an array.")]

/-- The `password` checks of `ContainerConfig.__init__`
(`manifest.get("password")` is `None` both for an absent key and for an
explicit `None` value). -/
def passwordErrors (d : PyDict) : List String :=
  match d.password with
  | none => [("'password' is not an optional field.")]
  | some PyVal.vnone => [("'password' is not an optional field.")]
  | some v => if pyIsStr v then [] else [("'password' must be a string.")]

/-- The result object of `ContainerConfig.__init__`: the attributes assigned
after the guard clauses.  `username` is the class attribute, always
`"root"`; the input's `username` key is never consulted. -/
structure ContainerConfig where
  arch : PyVal
  memory : PyVal
  hddmaxsize : PyVal
  hostname : PyVal
  username : String
  password : PyVal
  portfwd : PyVal
  legacy : Bool

/-- The attribute assignments at the end of `ContainerConfig.__init__`
(only evaluated when no error was accumulated, which guarantees the fields
are present; the `getD` defaults are unreachable there). -/
def buildConfig (d : PyDict) : ContainerConfig where
  arch := d.arch.getD PyVal.vnone
  memory := d.memory.getD PyVal.vnone
  hddmaxsize := d.hddmaxsize.getD PyVal.vnone
  hostname := pyOr (d.hostname.getD PyVal.vnone) (PyVal.vstr ("debian"))
  username := ("root")
  password := d.password.getD PyVal.vnone
  portfwd := pyOr (d.portfwd.getD PyVal.vnone) (PyVal.vlist [])
  legacy := match d.legacyKey with | some (PyVal.vbool b) => b | _ => false

/-- The error accumulation and final guard of `ContainerConfig.__init__`:
raise `InvalidConfigError` joining every accumulated message when any check
failed, otherwise build the object. -/
def validatedResult (d : PyDict) (e2 e5 : List String) :
    Except PyError ContainerConfig :=
  if archErrors d ++ e2 ++ memoryErrors d ++ hddmaxsizeErrors d
      ++ e5 ++ passwordErrors d = [] then Except.ok (buildConfig d)
  else Except.error (PyError.invalidConfig (archErrors d ++ e2 ++ memoryErrors d
      ++ hddmaxsizeErrors d ++ e5 ++ passwordErrors d))

/-- The field-validation part of `ContainerConfig.__init__` after the
legacy/version step, in source order: the `hostname` block can raise
(`KeyError` / `TypeError`) before the `portfwd` block does (`TypeError`);
all other blocks only accumulate messages. -/
def parseValidated (d : PyDict) : Except PyError ContainerConfig :=
  (hostnameStep d).bind (fun e2 =>
    (portfwdStep d).bind (fun e5 => validatedResult d e2 e5))

/-- `ContainerConfig.__init__` on a dictionary: legacy/version handling,
then field validation. -/
def parseConfig (d : PyDict) : Except PyError ContainerConfig :=
  match legacyStep d with
  | Except.ok d2 => parseValidated d2
  | Except.error e => Except.error e

/-- `ContainerConfig.to_dict`: the fixed key set, with `"__legacy": True`
present exactly when the object is legacy-flagged. -/
def ContainerConfig.toDict (c : ContainerConfig) : PyDict where
  manifest := some (PyVal.vint (MANIFEST_VERSION : Int))
  arch := some c.arch
  memory := some c.memory
  hddmaxsize := some c.hddmaxsize
  hostname := some c.hostname
  portfwd := some c.portfwd
  username := some (PyVal.vstr c.username)
  password := some c.password
  legacyKey := if c.legacy then some (PyVal.vbool true) else none

/-- Replacing (or inserting) the `username` key of a dictionary, for stating
that `ContainerConfig.__init__` never reads it. -/
def setUsername (d : PyDict) (u : Option PyVal) : PyDict :=
  { d with username := u }

/-- Shape of one acceptable `portfwd` entry: a two-element list of int-like
values (Python `bool` is an `int`).  In the value universe of `json.load`ed
configs this is exactly what survives
`len(l) == 2 and all(isinstance(i, int) for i in l)`. -/
def entryShape : PyVal → Bool
  | PyVal.vlist [v, h] => pyIsInt v && pyIsInt h
  | _ => false

/-- The guest-side ports of a `portfwd` list, in order. -/
def vportsOf : List PyVal → List Int
  | [] => []
  | PyVal.vlist [v, _] :: rest => pyToInt v :: vportsOf rest
  | _ :: rest => vportsOf rest

/-- The host-side ports of a `portfwd` list, in order. -/
def hportsOf : List PyVal → List Int
  | [] => []
  | PyVal.vlist [_, h] :: rest => pyToInt h :: hportsOf rest
  | _ :: rest => hportsOf rest

/-- The `portfwd` acceptance condition exactly as claim C4 states it: every
entry a pair of two ints, every guest and host port in [1, 65535] and not
equal to 22, no guest port repeated, no host port repeated. -/
def claimPortfwdAccepts (ls : List PyVal) : Prop :=
  (∀ l ∈ ls, entryShape l = true)
    ∧ (∀ p ∈ vportsOf ls, 1 ≤ p ∧ p ≤ 65535 ∧ p ≠ 22)
    ∧ (vportsOf ls).Nodup
    ∧ (∀ p ∈ hportsOf ls, 1 ≤ p ∧ p ≤ 65535 ∧ p ≠ 22)
    ∧ (hportsOf ls).Nodup

/-- The `portfwd` acceptance condition the code implements: as claim C4, but
with the port range [1, 65534] (Python `range(1, 65535)` excludes 65535). -/
def amendedPortfwdAccepts : Option PyVal → Prop
  | none => True
  | some (PyVal.vlist ls) =>
    (∀ l ∈ ls, entryShape l = true)
      ∧ (∀ p ∈ vportsOf ls, 1 ≤ p ∧ p ≤ 65534 ∧ p ≠ 22)
      ∧ (vportsOf ls).Nodup
      ∧ (∀ p ∈ hportsOf ls, 1 ≤ p ∧ p ≤ 65534 ∧ p ≠ 22)
      ∧ (hportsOf ls).Nodup
  | some _ => False

/-- A manifest dictionary that is valid except possibly for its `portfwd`
value, used to exercise the `portfwd` validation in isolation. -/
def pfwdProbe (pf : Option PyVal) : PyDict where
  manifest := some (PyVal.vint 0)
  arch := some (PyVal.vstr ("x86_64"))
  hostname := some (PyVal.vstr ("debian"))
  memory := some (PyVal.vint 2500)
  hddmaxsize := some (PyVal.vint 25)
  password := some (PyVal.vstr ("root"))
  portfwd := pf

/-- The input exhibiting the boundary error of claim C4: a single forward
`(3, 65535)`; both ports satisfy the claim's rules, yet
`ContainerConfig.__init__` rejects 65535. -/
def d65535 : PyDict := pfwdProbe (some (PyVal.vlist
  [PyVal.vlist [PyVal.vint 3, PyVal.vint 65535]]))

/-- The input exhibiting the `hostname` slip of claim C5: a manifest that is
valid except that the `hostname` key is absent.  `ContainerConfig.__init__`
contains the no-op guard `if "hostname" not in manifest: pass` and then
subscripts `manifest["hostname"]` unconditionally. -/
def dNoHostname : PyDict where
  manifest := some (PyVal.vint 0)
  arch := some (PyVal.vstr ("x86_64"))
  memory := some (PyVal.vint 2500)
  hddmaxsize := some (PyVal.vint 25)
  password := some (PyVal.vstr ("root"))

/-- The legacy literal `_LEGACY_CT_CONFIG` itself, as a `PyDict`. -/
def dLegacyLiteral : PyDict where
  arch := some (PyVal.vstr ("x86_64"))
  arguments := some (PyVal.vdict
    [(("m"), PyVal.vstr ("500M")),
     (("drive"), PyVal.vstr ("file=hdd.qcow2,format=qcow2"))])

/-- Outcome of one boot attempt inside the retry loop of `Container.start`:
the `expect` succeeds, or the `ExceptionPexpect` is classified by
`gen_boot_exception` as a port collision (`PortAllocationError`), or as some
other typed boot failure (identified here by a code `e`). -/
inductive AttemptResult where
  | success : AttemptResult
  | portCollision : AttemptResult
  | otherFailure (e : Nat) : AttemptResult
deriving DecidableEq

/-- Error raised by `Container.start`: the bare `PortAllocationError` of the
exhausted `for`/`else`, or the re-raised classified boot failure. -/
inductive StartErr where
  | portAllocationError : StartErr
  | bootErr (e : Nat) : StartErr
deriving DecidableEq

/-- `Container.max_retries`. -/
def max_retries : Nat := 25

/-- The `for _ in range(self.max_retries)` loop of `Container.start`, with
`k` iterations left and `i` attempts already made (attempt `i` allocates a
fresh host port and spawns QEMU): success breaks out, a port collision
continues the loop, any other classified failure is raised at once, and the
exhausted loop's `else` raises `PortAllocationError`.  On success the result
is the index of the succeeding attempt, so `i + 1` ports were allocated. -/
def startAttempts (attempt : Nat → AttemptResult) : Nat → Nat → Except StartErr Nat
  | 0, _ => Except.error StartErr.portAllocationError
  | Nat.succ k, i =>
    match attempt i with
    | AttemptResult.success => Except.ok i
    | AttemptResult.portCollision => startAttempts attempt k (i + 1)
    | AttemptResult.otherFailure e => Except.error (StartErr.bootErr e)

/-- The boot phase of `Container.start`: at most `max_retries` attempts. -/
def containerStartBoot (attempt : Nat → AttemptResult) : Except StartErr Nat :=
  startAttempts attempt max_retries 0

/-- The scan loop of `allocate_port`: `occupied` is the port set snapshot
taken from `psutil.net_connections()` before the loop; starting at `p` with
`k` candidates left, return the first unoccupied port. -/
def scanPorts (occupied : Nat → Bool) : Nat → Nat → Option Nat
  | _, 0 => none
  | p, Nat.succ k => if occupied p then scanPorts occupied (p + 1) k else some p

/-- `allocate_port(low, high)`: scan `range(low, high + 1)` in order;
`none` models the raised `PortAllocationError` (the `NoPortAvailable`
failure of the spec). -/
def allocate_port (occupied : Nat → Bool) (low high : Nat) : Option Nat :=
  scanPorts occupied low (high + 1 - low)

/-- A live container as the daemon's map stores it; only its identity
matters to the dispatch logic modelled here. -/
structure ContainerRT where
  name : String
deriving DecidableEq

/-- The daemon's `containers` dictionary, as an insertion-ordered
association list (Python dicts keep one entry per key; key uniqueness is
proved as an invariant below). -/
structure ServerState where
  containers : List (String × ContainerRT)
deriving DecidableEq

/-- Python `container_name in self.manager.containers`. -/
def hasCt (st : ServerState) (n : String) : Bool :=
  st.containers.any (fun p => p.1 == n)

/-- Replies `_SocketConnection._start` can send after the echoed name.
`bootFailure` (the wire keyword `BOOT_FAILURE` of
`ClientServerSocket.raise_boot_error`) is in the handler's vocabulary but is
unreachable: see `serverStart`. -/
inductive Reply where
  | ok : Reply
  | noSuchContainer : Reply
  | bootFailure : Reply
  | exceptionOccured : Reply
deriving DecidableEq

/-- Outcome of `Container(...)` plus `Container.start()` for the branch that
actually constructs: boot succeeds, `BootFailure` is raised, or some other
exception (e.g. from the SSH handshake) escapes `start`. -/
inductive BootResult where
  | booted : BootResult
  | bootFailed : BootResult
  | startRaised : BootResult
deriving DecidableEq

/-- `_SocketConnection._start`.  The missing-directory branch sends
`NO_SUCH_CONTAINER` but does not return, so the handler falls through to the
mutex-guarded section; there `Container.__init__` raises
`FileNotFoundError`, which the connection loop reports as
`EXCEPTION_OCCURED`.  If the name is already in the live map the handler
answers `OK` without constructing anything.  Otherwise the container is
constructed, inserted, and started.  On `BootFailure` the handler calls
`Container.kill()`, which terminates QEMU but then dereferences
`self.sshi` — an attribute `Container.start` only assigns after a
successful boot — so `kill` raises `AttributeError` before the handler
reaches its `del` and `raise_boot_error` lines: the entry stays in the map
and the connection loop reports `EXCEPTION_OCCURED`, exactly as for any
other exception escaping `start`. -/
def serverStart (dirExists : Bool) (br : BootResult) (n : String)
    (st : ServerState) : List Reply × ServerState :=
  let pre : List Reply := if dirExists then [] else [Reply.noSuchContainer]
  if hasCt st n then (pre ++ [Reply.ok], st)
  else if ¬ dirExists then (pre ++ [Reply.exceptionOccured], st)
  else
    match br with
    | BootResult.booted =>
      (pre ++ [Reply.ok], ⟨st.containers ++ [(n, ⟨n⟩)]⟩)
    | BootResult.bootFailed =>
      (pre ++ [Reply.exceptionOccured], ⟨st.containers ++ [(n, ⟨n⟩)]⟩)
    | BootResult.startRaised =>
      (pre ++ [Reply.exceptionOccured], ⟨st.containers ++ [(n, ⟨n⟩)]⟩)

/-- The frame decoder of `_RunCommandClient._recv` over a received byte
sequence: pairs `(stream, byte)` are consumed left to right.  Stream 0 is
discarded; streams 1 and 2 both pass the payload byte through
`bytes((mybyte,)).decode('utf-8')` — which succeeds exactly for bytes below
0x80 and raises `UnicodeDecodeError` otherwise, an exception the
`except (ConnectionError, OSError)` clause does not catch, so the receive
thread dies — and write the decoded character to `self.out_stream` (the
client's stdout; the client holds no stderr stream).  Any other id raises
`RuntimeError`; a trailing odd byte raises `IndexError` at `msg[i + 1]`.
The result records the bytes (ASCII characters, by their byte value)
written to the client's stdout and to its stderr (always none) before the
loop finished or an exception was raised, together with that exception. -/
def recvDecode : List Nat → (List Nat × List Nat) × Option PyError
  | [] => (([], []), none)
  | s :: rest =>
    match rest with
    | [] => (([], []), some PyError.indexError)
    | b :: rest2 =>
      if s = 0 then recvDecode rest2
      else if s = 1 then
        if b < 128 then
          ((b :: (recvDecode rest2).1.1, (recvDecode rest2).1.2), (recvDecode rest2).2)
        else (([], []), some PyError.unicodeDecodeError)
      else if s = 2 then
        if b < 128 then
          ((b :: (recvDecode rest2).1.1, (recvDecode rest2).1.2), (recvDecode rest2).2)
        else (([], []), some PyError.unicodeDecodeError)
      else (([], []), some PyError.runtimeError)

/-- A sequence of 2-byte frames `[stream_id, byte]` flattened to the wire. -/
def encodeFrames : List (Nat × Nat) → List Nat
  | [] => []
  | f :: rest => f.1 :: f.2 :: encodeFrames rest

/-- The payload bytes of the frames whose stream id is 1 or 2, in order. -/
def outputBytes (frames : List (Nat × Nat)) : List Nat :=
  (frames.filter (fun f => f.1 == 1 || f.1 == 2)).map (fun f => f.2)

/-- State touched by `SSHInterface.update_hostkey`: whether the paramiko
client is open, the contents of the per-container `id_rsa` / `id_rsa.pub`
files, and the lines of the guest's `$HOME/.ssh/authorized_keys`. -/
structure SSHState where
  sshOpen : Bool
  id_rsa : Option String
  id_rsa_pub : Option String
  authorizedKeys : List String
deriving DecidableEq

/-- Errors `SSHInterface.update_hostkey` raises: `OSError` when the client
is not open, `FailedToAuthorizeKeyError` carrying the guest exit status. -/
inductive HostkeyErr where
  | notOpen : HostkeyErr
  | failedToAuthorizeKey (code : Nat) : HostkeyErr
deriving DecidableEq

/-- `SSHInterface.update_hostkey`, with `newKey` the base64 body of the
freshly generated RSA key and `guestExit` the exit status of the guest
command `echo "ssh-rsa <key>" > $HOME/.ssh/authorized_keys`.  The old key
files are removed and rewritten; the guest redirect `>` truncates
`authorized_keys`, leaving exactly the one new line when the command
succeeds (its effect on failure is outside the model); a nonzero exit status
raises `FailedToAuthorizeKeyError`. -/
def update_hostkey (newKey : String) (guestExit : Nat) (st : SSHState) :
    Except HostkeyErr SSHState :=
  if ¬ st.sshOpen then Except.error HostkeyErr.notOpen
  else if guestExit ≠ 0 then Except.error (HostkeyErr.failedToAuthorizeKey guestExit)
  else Except.ok
    { st with
      id_rsa := some newKey
      id_rsa_pub := some (("ssh-rsa ") ++ newKey ++ "\n")
      authorizedKeys := [("ssh-rsa ") ++ newKey] }

/-- Replies the `INSTALL` handler can send after its two payload
round-trips. -/
inductive InstallReply where
  | ok : InstallReply
  | invalidPath : InstallReply
  | exceptionOccured : InstallReply
deriving DecidableEq

/-- `_SocketConnection._install` followed by
`container_extras.install_container`: `INVALID_PATH` when the archive path
is not a file; `TypeError` (reported as `EXCEPTION_OCCURED`) when it is not
a tar archive; otherwise the archive is extracted into the per-container
directory and the handler replies `OK`.  Whether a directory for
`container_name` already exists (`containerDirExists`) is never consulted.
The second component records whether `tar.extractall` ran. -/
def serverInstall (archiveIsFile : Bool) (archiveIsTar : Bool)
    (containerDirExists : Bool) : InstallReply × Bool :=
  if ¬ archiveIsFile then (InstallReply.invalidPath, false)
  else if ¬ archiveIsTar then (InstallReply.exceptionOccured, false)
  else (InstallReply.ok, true)

/-- If a `scanPorts` scan starting at `p` with `k` candidates returns a
port, that port is the first unoccupied one at or after `p`. -/
theorem scanPorts_some_spec (occ : Nat → Bool) :
    ∀ (k p r : Nat), scanPorts occ p k = some r →
      p ≤ r ∧ r < p + k ∧ occ r = false ∧ ∀ q, p ≤ q → q < r → occ q = true := by
  intro k
  induction k with
  | zero => intro p r h; simp [scanPorts] at h
  | succ k ih =>
    intro p r h
    rw [scanPorts] at h
    by_cases hp : occ p = true
    · rw [if_pos hp] at h
      obtain ⟨h1, h2, h3, h4⟩ := ih (p + 1) r h
      refine ⟨by omega, by omega, h3, ?_⟩
      intro q hq1 hq2
      rcases Nat.eq_or_lt_of_le hq1 with rfl | hlt
      · exact hp
      · exact h4 q hlt hq2
    · rw [if_neg hp] at h
      cases h
      exact ⟨le_refl _, by omega, by simpa using hp, fun q hq1 hq2 => by omega⟩

/-- A `scanPorts` scan fails exactly when every candidate is occupied. -/
theorem scanPorts_none_iff (occ : Nat → Bool) :
    ∀ (k p : Nat), scanPorts occ p k = none ↔ ∀ q, p ≤ q → q < p + k → occ q = true := by
  intro k
  induction k with
  | zero => intro p; simp [scanPorts]; intro q h1 h2; omega
  | succ k ih =>
    intro p
    rw [scanPorts]
    by_cases hp : occ p = true
    · rw [if_pos hp, ih]
      constructor
      · intro h q hq1 hq2
        rcases Nat.eq_or_lt_of_le hq1 with rfl | hlt
        · exact hp
        · exact h q hlt (by omega)
      · intro h q hq1 hq2
        exact h q (by omega) (by omega)
    · rw [if_neg hp]
      constructor
      · intro h; exact Option.noConfusion h
      · intro h; exact absurd (h p (le_refl _) (by omega)) hp

/-- Claim C3: `allocate_port` on the inclusive range [low, high] returns the
lowest port of the range not observed as occupied in the snapshot taken at
the moment of the call, and fails (raising `PortAllocationError`) if and
only if every port of the range was scanned and found occupied. -/
theorem allocate_port_lowest_free (occ : Nat → Bool) (low high : Nat) :
    (∀ p, allocate_port occ low high = some p →
      low ≤ p ∧ p ≤ high ∧ occ p = false ∧ ∀ q, low ≤ q → q < p → occ q = true)
    ∧ (allocate_port occ low high = none ↔ ∀ p, low ≤ p → p ≤ high → occ p = true) := by
  constructor
  · intro p h
    obtain ⟨h1, h2, h3, h4⟩ := scanPorts_some_spec occ (high + 1 - low) low p h
    exact ⟨h1, by omega, h3, h4⟩
  · rw [allocate_port, scanPorts_none_iff]
    constructor
    · intro h q h1 h2; exact h q h1 (by omega)
    · intro h q h1 h2; exact h q h1 (by omega)

/-- Witness for claim C3 at a concrete range and occupancy snapshot: with
ports 5 and 6 occupied, the scan of [5, 9] yields 7, which is in range,
free, and preceded only by occupied ports. -/
theorem allocate_port_lowest_free_witness :
    5 ≤ 7 ∧ 7 ≤ 9 ∧ (fun p => decide (p < 7)) 7 = false
      ∧ ∀ q, 5 ≤ q → q < 7 → (fun p => decide (p < 7)) q = true :=
  (allocate_port_lowest_free (fun p => decide (p < 7)) 5 9).1 7 rfl

/-- Skipping a run of consecutive port-collision attempts advances the
retry loop of `Container.start` without changing its outcome. -/
theorem startAttempts_skip (attempt : Nat → AttemptResult) :
    ∀ (i k b : Nat), i ≤ k →
      (∀ j, j < i → attempt (b + j) = AttemptResult.portCollision) →
      startAttempts attempt k b = startAttempts attempt (k - i) (b + i) := by
  intro i
  induction i with
  | zero => intro k b _ _; simp
  | succ i ih =>
    intro k b hik hcol
    cases k with
    | zero => omega
    | succ k =>
      have h0 : attempt b = AttemptResult.portCollision := by
        have := hcol 0 (by omega)
        simpa using this
      have step : startAttempts attempt (k + 1) b = startAttempts attempt k (b + 1) := by
        rw [startAttempts, h0]
      rw [step]
      have htail : ∀ j, j < i → attempt (b + 1 + j) = AttemptResult.portCollision := by
        intro j hj
        have := hcol (j + 1) (by omega)
        have harg : b + (j + 1) = b + 1 + j := by omega
        rwa [harg] at this
      have := ih k (b + 1) (by omega) htail
      rw [this]
      have h1 : k + 1 - (i + 1) = k - i := by omega
      have h2 : b + (i + 1) = b + 1 + i := by omega
      rw [h1, h2]

/-- Claim C2: the boot loop of `Container.start` retries (allocating a fresh
host port per attempt) only on port-collision failures, makes at most
`max_retries` = 25 attempts, raises `PortAllocationError` after the 25th
consecutive collision, and re-raises any other classified boot failure
immediately. -/
theorem containerStart_retry_budget (attempt : Nat → AttemptResult) :
    (∀ i e, i < max_retries →
      (∀ j, j < i → attempt j = AttemptResult.portCollision) →
      attempt i = AttemptResult.otherFailure e →
      containerStartBoot attempt = Except.error (StartErr.bootErr e))
    ∧ ((∀ j, j < max_retries → attempt j = AttemptResult.portCollision) →
      containerStartBoot attempt = Except.error StartErr.portAllocationError)
    ∧ (∀ i, i < max_retries →
      (∀ j, j < i → attempt j = AttemptResult.portCollision) →
      attempt i = AttemptResult.success →
      containerStartBoot attempt = Except.ok i) := by
  refine ⟨?_, ?_, ?_⟩
  · intro i e hi hcol hfail
    have hskip := startAttempts_skip attempt i max_retries 0 (by omega)
      (fun j hj => by simpa using hcol j hj)
    rw [containerStartBoot, hskip]
    have : max_retries - i = (max_retries - i - 1) + 1 := by
      unfold max_retries at hi ⊢; omega
    rw [this, startAttempts]
    simp only [Nat.zero_add]
    rw [hfail]
  · intro hcol
    have hskip := startAttempts_skip attempt max_retries max_retries 0 (le_refl _)
      (fun j hj => by simpa using hcol j hj)
    rw [containerStartBoot, hskip]
    simp [startAttempts]
  · intro i hi hcol hsucc
    have hskip := startAttempts_skip attempt i max_retries 0 (by omega)
      (fun j hj => by simpa using hcol j hj)
    rw [containerStartBoot, hskip]
    have : max_retries - i = (max_retries - i - 1) + 1 := by
      unfold max_retries at hi ⊢; omega
    rw [this, startAttempts]
    simp only [Nat.zero_add]
    rw [hsucc]

/-- Witness for claim C2: an attempt sequence that collides on every one of
the 25 tries exhausts the budget and raises `PortAllocationError`. -/
theorem containerStart_retry_budget_witness :
    containerStartBoot (fun _ => AttemptResult.portCollision)
      = Except.error StartErr.portAllocationError :=
  (containerStart_retry_budget (fun _ => AttemptResult.portCollision)).2.1
    (fun _ _ => rfl)

/-- A name absent from the live map (`hasCt` false) heads no entry. -/
theorem hasCt_false_not_mem {st : ServerState} {n : String}
    (h : hasCt st n = false) : n ∉ st.containers.map Prod.fst := by
  intro hmem
  obtain ⟨p, hp, hfst⟩ := List.mem_map.mp hmem
  unfold hasCt at h
  rw [List.any_eq_false] at h
  exact h p hp (by simp [hfst])

/-- Claim C1: a `START` for a name already in the daemon's live map replies
`OK` without constructing or starting a second container (the state is
unchanged); `START(N); START(N)` is observationally equivalent to one
successful `START(N)`; and `_start` preserves key uniqueness of the live
map, so at most one entry per name ever exists. -/
theorem serverStart_idempotent (st : ServerState) (n : String)
    (dirExists : Bool) (br br2 : BootResult)
    (hnodup : (st.containers.map Prod.fst).Nodup) :
    (hasCt st n = true →
      serverStart dirExists br n st
        = ((if dirExists then [] else [Reply.noSuchContainer]) ++ [Reply.ok], st))
    ∧ (serverStart true br2 n (serverStart true BootResult.booted n st).2
        = ([Reply.ok], (serverStart true BootResult.booted n st).2))
    ∧ ((serverStart dirExists br n st).2.containers.map Prod.fst).Nodup := by
  refine ⟨?_, ?_, ?_⟩
  · intro h
    simp [serverStart, h]
  · by_cases h : hasCt st n = true
    · simp [serverStart, h]
    · have hf : hasCt st n = false := by simpa using h
      have hgrow : (serverStart true BootResult.booted n st).2
          = ⟨st.containers ++ [(n, ⟨n⟩)]⟩ := by
        simp [serverStart, hf]
      rw [hgrow]
      have hmem : hasCt ⟨st.containers ++ [(n, ⟨n⟩)]⟩ n = true := by
        simp [hasCt]
      simp [serverStart, hmem]
  · by_cases h : hasCt st n = true
    · simpa [serverStart, h] using hnodup
    · have hf : hasCt st n = false := by simpa using h
      have hnot := hasCt_false_not_mem hf
      have hgrow : ((st.containers ++ [(n, (⟨n⟩ : ContainerRT))]).map Prod.fst).Nodup := by
        have hcat : (st.containers ++ [(n, (⟨n⟩ : ContainerRT))]).map Prod.fst
            = (st.containers.map Prod.fst).concat n := by
          simp [List.concat_eq_append]
        rw [hcat]
        exact List.Nodup.concat (by simpa using hnot) hnodup
      by_cases hd : dirExists = true
      · cases br with
        | booted =>
          have : (serverStart dirExists BootResult.booted n st).2
              = ⟨st.containers ++ [(n, ⟨n⟩)]⟩ := by simp [serverStart, hf, hd]
          rw [this]
          exact hgrow
        | bootFailed =>
          have : (serverStart dirExists BootResult.bootFailed n st).2
              = ⟨st.containers ++ [(n, ⟨n⟩)]⟩ := by simp [serverStart, hf, hd]
          rw [this]
          exact hgrow
        | startRaised =>
          have : (serverStart dirExists BootResult.startRaised n st).2
              = ⟨st.containers ++ [(n, ⟨n⟩)]⟩ := by simp [serverStart, hf, hd]
          rw [this]
          exact hgrow
      · have hd' : dirExists = false := by simpa using hd
        have : (serverStart dirExists br n st).2 = st := by
          simp [serverStart, hf, hd']
        rw [this]
        exact hnodup

/-- Witness for claim C1 at a concrete state: with `demo` already live, a
second `START demo` replies `OK` and leaves the one-entry map unchanged. -/
theorem serverStart_idempotent_witness :
    serverStart true BootResult.booted ("demo") ⟨[(("demo"), ⟨("demo")⟩)]⟩
      = ([Reply.ok], ⟨[(("demo"), ⟨("demo")⟩)]⟩) :=
  ((serverStart_idempotent ⟨[(("demo"), ⟨("demo")⟩)]⟩ ("demo") true
      BootResult.booted BootResult.booted (by simp)).1 (by decide))

/-- Claim C7 fails on the code: for the stream-2 frame `[0x02, 0x41]` the
client writes the payload byte to its own stdout (`self.out_stream`), not to
its stderr — the decoded output is `([0x41], [])` with no exception, not
`([], [0x41])` as the claim requires for an stderr byte. -/
theorem recv_stderr_counterexample :
    recvDecode [2, 65] = (([65], []), none)
      ∧ recvDecode [2, 65] ≠ ((([] : List Nat), [65]), (none : Option PyError)) := by
  refine ⟨rfl, ?_⟩
  intro h
  rw [show recvDecode [2, 65] = (([65], []), none) from rfl] at h
  simp at h

/-- A frame list whose id-1/2 payload bytes are all ASCII decodes cleanly:
every such byte lands on the client's stdout, in order, keepalives are
discarded, and nothing reaches stderr. -/
theorem recvDecode_ok_frames (frames : List (Nat × Nat))
    (h : ∀ f ∈ frames, f.1 = 0 ∨ ((f.1 = 1 ∨ f.1 = 2) ∧ f.2 < 128)) :
    recvDecode (encodeFrames frames) = ((outputBytes frames, []), none) := by
  induction frames with
  | nil => rfl
  | cons f rest ih =>
    have hrest := ih (fun g hg => h g (List.mem_cons_of_mem f hg))
    rcases h f (List.mem_cons_self f rest) with h0 | ⟨h12, hb⟩
    · simp [encodeFrames, recvDecode, h0, outputBytes, hrest]
    · rcases h12 with h1 | h2
      · simp [encodeFrames, recvDecode, h1, hb, outputBytes, hrest]
      · simp [encodeFrames, recvDecode, h2, hb, outputBytes, hrest]

/-- The first id-1/2 frame whose payload byte is not ASCII raises an
uncaught `UnicodeDecodeError`: only the earlier frames' bytes were written,
and no later frame is processed. -/
theorem recvDecode_unicode_kills (pre : List (Nat × Nat))
    (h : ∀ f ∈ pre, f.1 = 0 ∨ ((f.1 = 1 ∨ f.1 = 2) ∧ f.2 < 128)) :
    ∀ (s b : Nat) (post : List (Nat × Nat)), (s = 1 ∨ s = 2) → 128 ≤ b →
      recvDecode (encodeFrames (pre ++ (s, b) :: post))
        = ((outputBytes pre, []), some PyError.unicodeDecodeError) := by
  induction pre with
  | nil =>
    intro s b post h12 hb
    have hnb : ¬ b < 128 := by omega
    rcases h12 with h1 | h2
    · simp [encodeFrames, recvDecode, h1, hnb, outputBytes]
    · simp [encodeFrames, recvDecode, h2, hnb, outputBytes]
  | cons f rest ih =>
    intro s b post h12 hb
    have hrest := ih (fun g hg => h g (List.mem_cons_of_mem f hg)) s b post h12 hb
    rcases h f (List.mem_cons_self f rest) with h0 | ⟨h12f, hbf⟩
    · simp [encodeFrames, recvDecode, h0, outputBytes, hrest]
    · rcases h12f with h1 | h2
      · simp [encodeFrames, recvDecode, h1, hbf, outputBytes, hrest]
      · simp [encodeFrames, recvDecode, h2, hbf, outputBytes, hrest]

/-- Claim C7 as amended: frames with stream id 1 and stream id 2 both have
their payload byte written to the client's stdout stream (the only stream
`_RunCommandClient` holds) when the byte decodes as UTF-8 on its own, i.e.
is below 0x80; id-0 frames are discarded as keepalives; nothing is ever
written to the client's stderr; and the first id-1/2 frame carrying a byte
at or above 0x80 raises `UnicodeDecodeError` — uncaught by the
`except (ConnectionError, OSError)` handler — so the receive thread dies
with only the earlier bytes written. -/
theorem recv_frames_to_stdout (pre : List (Nat × Nat))
    (hpre : ∀ f ∈ pre, f.1 = 0 ∨ ((f.1 = 1 ∨ f.1 = 2) ∧ f.2 < 128)) :
    recvDecode (encodeFrames pre) = ((outputBytes pre, []), none)
      ∧ ∀ (s b : Nat) (post : List (Nat × Nat)), (s = 1 ∨ s = 2) → 128 ≤ b →
        recvDecode (encodeFrames (pre ++ (s, b) :: post))
          = ((outputBytes pre, []), some PyError.unicodeDecodeError) :=
  ⟨recvDecode_ok_frames pre hpre, recvDecode_unicode_kills pre hpre⟩

/-- Witness for the amended claim C7: the frames
`[(1, 104), (0, 0), (2, 33)]` decode to the stdout bytes `[104, 33]` with
the keepalive discarded and nothing on stderr; appending the frame
`(2, 195)` (lead byte of a two-byte UTF-8 sequence) raises
`UnicodeDecodeError` with only those two bytes written, the following
`(1, 10)` frame never processed. -/
theorem recv_frames_to_stdout_witness :
    recvDecode (encodeFrames [(1, 104), (0, 0), (2, 33)])
        = (([104, 33], []), none)
      ∧ recvDecode (encodeFrames ([(1, 104), (0, 0), (2, 33)] ++ (2, 195) :: [(1, 10)]))
          = (([104, 33], []), some PyError.unicodeDecodeError) := by
  have h := recv_frames_to_stdout [(1, 104), (0, 0), (2, 33)] (by decide)
  exact ⟨h.1, h.2 2 195 [(1, 10)] (by decide) (by decide)⟩

/-- The state `update_hostkey` is probed at: open session, one previously
authorized key. -/
def sshProbe : SSHState where
  sshOpen := true
  id_rsa := none
  id_rsa_pub := none
  authorizedKeys := [("ssh-rsa OLD")]

/-- The state the code actually produces from `sshProbe`. -/
def sshProbeResult : SSHState where
  sshOpen := true
  id_rsa := some ("NEW")
  id_rsa_pub := some ("ssh-rsa NEW\n")
  authorizedKeys := [("ssh-rsa NEW")]

/-- Claim C8 fails on the code: the guest command uses the truncating
redirect `>` rather than `>>`, so a successful `update_hostkey` leaves
`authorized_keys` holding only the new public key — the previously
authorized key is gone, contradicting "appends … preserving previously
authorized keys". -/
theorem update_hostkey_counterexample :
    update_hostkey ("NEW") 0 sshProbe = Except.ok sshProbeResult
      ∧ ("ssh-rsa OLD") ∉ sshProbeResult.authorizedKeys := by
  exact ⟨rfl, by decide⟩

/-- Claim C8 as amended: `update_hostkey` writes the fresh key pair to the
per-container `id_rsa` / `id_rsa.pub` paths and replaces the guest's
`authorized_keys` with exactly the new public key (the `>` redirect
truncates), and it raises the distinguishable `FailedToAuthorizeKeyError`
exactly when the guest-side command exits nonzero. -/
theorem update_hostkey_amended (newKey : String) (guestExit : Nat)
    (st : SSHState) (hopen : st.sshOpen = true) :
    (guestExit = 0 →
      update_hostkey newKey guestExit st = Except.ok
        { st with
          id_rsa := some newKey
          id_rsa_pub := some (("ssh-rsa ") ++ newKey ++ "\n")
          authorizedKeys := [("ssh-rsa ") ++ newKey] })
    ∧ (guestExit ≠ 0 →
      update_hostkey newKey guestExit st
        = Except.error (HostkeyErr.failedToAuthorizeKey guestExit)) := by
  constructor
  · intro h0
    simp [update_hostkey, hopen, h0]
  · intro hne
    simp [update_hostkey, hopen, hne]

/-- Witness for the amended claim C8 at the probe state: success with exit
status 0 rewrites the key files and truncates `authorized_keys`. -/
theorem update_hostkey_amended_witness :
    update_hostkey ("NEW") 0 sshProbe = Except.ok sshProbeResult :=
  (update_hostkey_amended ("NEW") 0 sshProbe rfl).1 rfl

/-- Claim C9 fails on the code: with a valid tar archive and the container
directory already present, the `INSTALL` handler still replies `OK` and
`install_container` still extracts — no existing-name rejection exists in
`_install` or `install_container`. -/
theorem install_existing_counterexample :
    serverInstall true true true = (InstallReply.ok, true)
      ∧ ¬ ((serverInstall true true true).1 ≠ InstallReply.ok
            ∧ (serverInstall true true true).2 = false) := by
  exact ⟨rfl, by decide⟩

/-- Claim C9 as amended: the `INSTALL` handler never consults whether a
per-container directory for the name already exists; it extracts the
archive exactly when the archive path is a file and is a tar archive
(replying `OK`), in particular extracting over an existing container. -/
theorem install_ignores_existing (archiveIsFile archiveIsTar dirExists : Bool) :
    serverInstall archiveIsFile archiveIsTar dirExists
        = serverInstall archiveIsFile archiveIsTar false
      ∧ (serverInstall archiveIsFile archiveIsTar dirExists).2
          = (archiveIsFile && archiveIsTar)
      ∧ ((serverInstall archiveIsFile archiveIsTar dirExists).1 = InstallReply.ok
          ↔ (archiveIsFile && archiveIsTar) = true) := by
  revert archiveIsFile archiveIsTar dirExists
  decide

/-- A successful parse factors through the legacy/version step. -/
theorem parseConfig_ok_inv {d : PyDict} {c : ContainerConfig}
    (h : parseConfig d = Except.ok c) :
    ∃ d2, legacyStep d = Except.ok d2 ∧ parseValidated d2 = Except.ok c := by
  unfold parseConfig at h
  cases hleg : legacyStep d with
  | ok d2 => rw [hleg] at h; exact ⟨d2, rfl, h⟩
  | error e => rw [hleg] at h; exact Except.noConfusion h

/-- A successful validation factors through the two fallible field steps. -/
theorem parseValidated_ok_inv {d : PyDict} {c : ContainerConfig}
    (h : parseValidated d = Except.ok c) :
    ∃ e2 e5, hostnameStep d = Except.ok e2 ∧ portfwdStep d = Except.ok e5
      ∧ validatedResult d e2 e5 = Except.ok c := by
  unfold parseValidated at h
  cases h2 : hostnameStep d with
  | error e => rw [h2] at h; exact Except.noConfusion h
  | ok e2 =>
    rw [h2] at h
    cases h5 : portfwdStep d with
    | error e => rw [h5] at h; exact Except.noConfusion h
    | ok e5 => rw [h5] at h; exact ⟨e2, e5, rfl, rfl, h⟩

/-- A built config means every validation block accumulated no error. -/
theorem validatedResult_ok_inv {d : PyDict} {e2 e5 : List String}
    {c : ContainerConfig} (h : validatedResult d e2 e5 = Except.ok c) :
    archErrors d = [] ∧ e2 = [] ∧ memoryErrors d = [] ∧ hddmaxsizeErrors d = []
      ∧ e5 = [] ∧ passwordErrors d = [] ∧ c = buildConfig d := by
  unfold validatedResult at h
  split at h
  case isTrue herrs =>
    simp only [List.append_eq_nil] at herrs
    obtain ⟨⟨⟨⟨⟨h1, h2⟩, h3⟩, h4⟩, h5⟩, h6⟩ := herrs
    cases h
    exact ⟨h1, h2, h3, h4, h5, h6, rfl⟩
  case isFalse => exact Except.noConfusion h

/-- Claim C5 (the code defect it documents): `ContainerConfig.__init__`
contains the dead guard `if "hostname" not in manifest: pass` and then
subscripts `manifest["hostname"]` unconditionally, so a manifest lacking
`hostname` aborts with a bare `KeyError` instead of accumulating field
errors into `InvalidConfigError`. -/
theorem parseConfig_missing_hostname_keyerror :
    parseConfig dNoHostname = Except.error (PyError.keyError ("hostname")) := rfl

/-- Reduction of the legacy/version step when the `manifest` key is
present. -/
theorem legacyStep_some {d : PyDict} {v : PyVal} (hm : d.manifest = some v) :
    legacyStep d
      = if isNoneVal v then Except.error PyError.unsupportedLegacyConfig
        else if versionOk v then Except.ok d
        else Except.error (PyError.invalidConfig
          [("Unknown manifest version ") ++ pyRepr v]) := by
  unfold legacyStep
  rw [hm]

/-- Reduction of the legacy/version step when the `manifest` key is
absent. -/
theorem legacyStep_none {d : PyDict} (hm : d.manifest = none) :
    legacyStep d
      = if isLegacyCt d then Except.ok legacyUpgrade
        else Except.error PyError.unsupportedLegacyConfig := by
  unfold legacyStep
  rw [hm]

/-- `isLegacyCt` demands the dictionary carry no `username` key. -/
theorem isLegacyCt_username_none {d : PyDict} (h : isLegacyCt d = true) :
    d.username = none := by
  unfold isLegacyCt at h
  simp only [Bool.and_eq_true, Option.isNone_iff_eq_none] at h
  exact h.1.1.2

/-- Claim C10: every accepted configuration reports username `root` — the
object's `username` is the class attribute `"root"`, `to_dict` emits
`"username": "root"`, and for any accepted input that actually carries a
`username` key (such inputs necessarily take the non-legacy path, where the
key is never read) the parse outcome is unchanged under any replacement of
that key's value. -/
theorem username_always_root (d : PyDict) (c : ContainerConfig)
    (h : parseConfig d = Except.ok c) :
    c.username = ("root")
      ∧ (ContainerConfig.toDict c).username = some (PyVal.vstr ("root"))
      ∧ (d.username ≠ none → ∀ u, parseConfig (setUsername d u) = parseConfig d) := by
  obtain ⟨d2, hleg, hval⟩ := parseConfig_ok_inv h
  obtain ⟨e2, e5, _, _, hres⟩ := parseValidated_ok_inv hval
  obtain ⟨_, _, _, _, _, _, hc⟩ := validatedResult_ok_inv hres
  refine ⟨by rw [hc]; rfl, by rw [hc]; rfl, ?_⟩
  intro huser u
  cases hm : d.manifest with
  | none =>
    exfalso
    rw [legacyStep_none hm] at hleg
    by_cases hlc : isLegacyCt d = true
    · exact huser (isLegacyCt_username_none hlc)
    · rw [if_neg (by simpa using hlc)] at hleg
      exact Except.noConfusion hleg
  | some v =>
    rw [legacyStep_some hm] at hleg
    have hnone : isNoneVal v = false := by
      by_cases hn : isNoneVal v = true
      · rw [if_pos (by simpa using hn)] at hleg; exact Except.noConfusion hleg
      · simpa using hn
    rw [if_neg (by simp [hnone])] at hleg
    have hver : versionOk v = true := by
      by_cases hv : versionOk v = true
      · exact hv
      · rw [if_neg (by simpa using hv)] at hleg; exact Except.noConfusion hleg
    have hstep : ∀ (e : PyDict), e.manifest = some v →
        legacyStep e = Except.ok e := by
      intro e he
      rw [legacyStep_some he, if_neg (by simp [hnone]), if_pos (by simpa using hver)]
    have hsame : parseValidated (setUsername d u) = parseValidated d := rfl
    unfold parseConfig
    rw [hstep (setUsername d u) (by simpa [setUsername] using hm), hstep d hm]
    exact hsame

/-- An accepted probe configuration carrying a junk `username` key. -/
def dUserProbe : PyDict :=
  { pfwdProbe none with username := some (PyVal.vint 7) }

/-- The object `dUserProbe` parses to. -/
def cUserProbe : ContainerConfig := buildConfig dUserProbe

/-- Witness for claim C10: the probe input carries `username: 7`, parses
successfully, reports username `root`, and replacing the `username` value by
a string changes nothing. -/
theorem username_always_root_witness :
    cUserProbe.username = ("root")
      ∧ parseConfig (setUsername dUserProbe (some (PyVal.vstr ("alice"))))
          = parseConfig dUserProbe := by
  have h := username_always_root dUserProbe cUserProbe rfl
  exact ⟨h.1, h.2.2 (by simp [dUserProbe]) (some (PyVal.vstr ("alice")))⟩

/-- An acceptable `portfwd` entry is a two-element list of int-like
values. -/
theorem entryShape_inv {l : PyVal} (h : entryShape l = true) :
    ∃ v h2, l = PyVal.vlist [v, h2] ∧ pyIsInt v = true ∧ pyIsInt h2 = true := by
  cases l with
  | vlist xs =>
    match xs with
    | [] => exact absurd h (by simp [entryShape])
    | [a] => exact absurd h (by simp [entryShape])
    | [a, b] =>
      simp only [entryShape, Bool.and_eq_true] at h
      exact ⟨a, b, rfl, h.1, h.2⟩
    | a :: b :: cc :: tl => exact absurd h (by simp [entryShape])
  | vnone => exact absurd h (by simp [entryShape])
  | vbool b => exact absurd h (by simp [entryShape])
  | vint n => exact absurd h (by simp [entryShape])
  | vstr s => exact absurd h (by simp [entryShape])
  | vdict es => exact absurd h (by simp [entryShape])

/-- The per-element condition of the `all(...)` generator agrees with
`entryShape` on every value with a length. -/
theorem shapeCond_eq_entryShape {l : PyVal} {n : Nat} (hn : pyLen l = some n) :
    (n == 2 && (pyIter l).all pyIsInt) = entryShape l := by
  cases l with
  | vnone => exact Option.noConfusion hn
  | vbool b => exact Option.noConfusion hn
  | vint m => exact Option.noConfusion hn
  | vstr s =>
    have hn2 : n = s.length := by
      simpa [pyLen] using hn.symm
    subst hn2
    cases hd : s.data with
    | nil =>
      have : s.length = 0 := by simp [String.length, hd]
      simp [entryShape, this]
    | cons ch tl =>
      have : (pyIter (PyVal.vstr s)).all pyIsInt = false := by
        simp [pyIter, String.toList, hd, List.all_cons, pyIsInt]
      simp [entryShape, this]
  | vdict es =>
    have hn2 : n = es.length := by simpa [pyLen] using hn.symm
    subst hn2
    cases es with
    | nil => simp [entryShape, pyIter]
    | cons e tl =>
      have : (pyIter (PyVal.vdict (e :: tl))).all pyIsInt = false := by
        simp [pyIter, List.all_cons, pyIsInt]
      simp [entryShape, this]
  | vlist xs =>
    have hn2 : n = xs.length := by simpa [pyLen] using hn.symm
    subst hn2
    match xs with
    | [] => simp [entryShape, pyIter]
    | [a] => simp [entryShape, pyIter]
    | [a, b] => simp [entryShape, pyIter, List.all_cons, Bool.and_assoc]
    | a :: b :: cc :: tl =>
      have hlen : ((a :: b :: cc :: tl).length == 2) = false := by
        simp only [List.length_cons, beq_eq_false_iff_ne, ne_eq]
        omega
      simp [entryShape, hlen]

/-- The shape generator accepts exactly when every element is a two-int
pair. -/
theorem pfwdShapeCheck_ok_true_iff (ls : List PyVal) :
    pfwdShapeCheck ls = Except.ok true ↔ ∀ l ∈ ls, entryShape l = true := by
  induction ls with
  | nil => simp [pfwdShapeCheck]
  | cons l rest ih =>
    cases hn : pyLen l with
    | none =>
      have hes : entryShape l = false := by
        cases l <;> first
          | (exact Option.noConfusion hn)
          | rfl
      simp [pfwdShapeCheck, hn, hes]
    | some n =>
      have hcond := shapeCond_eq_entryShape hn
      by_cases hes : entryShape l = true
      · have hct : (n == 2 && (pyIter l).all pyIsInt) = true := by rw [hcond, hes]
        simp [pfwdShapeCheck, hn, hct, hes, ih, List.forall_mem_cons]
      · have hes' : entryShape l = false := by simpa using hes
        have hcf : (n == 2 && (pyIter l).all pyIsInt) = false := by rw [hcond, hes']
        simp [pfwdShapeCheck, hn, hcf, hes', List.forall_mem_cons]

/-- One side check passes (adds no message) exactly when the port is in
`range(1, 65535)` and not already taken; it then records the port. -/
theorem portSideCheck_fst_eq_nil_iff (iv : Bool) (x : PyVal) (t : List Int) :
    (portSideCheck iv x t).1 = [] ↔
      (1 ≤ pyToInt x ∧ pyToInt x < 65535 ∧ pyToInt x ∉ t) := by
  unfold portSideCheck
  by_cases hr : 1 ≤ pyToInt x ∧ pyToInt x < 65535
  · rw [if_neg (by simpa using hr)]
    by_cases ht : pyToInt x ∈ t
    · rw [if_pos ht]
      simp [ht]
    · rw [if_neg ht]
      simp [ht, hr.1, hr.2]
  · rw [if_pos (by simpa using hr)]
    simp
    intro h1 h2
    exact absurd ⟨h1, h2⟩ hr

/-- A passing side check pushes the port onto the taken set. -/
theorem portSideCheck_pass (iv : Bool) (x : PyVal) (t : List Int)
    (h : 1 ≤ pyToInt x ∧ pyToInt x < 65535 ∧ pyToInt x ∉ t) :
    portSideCheck iv x t = ([], pyToInt x :: t) := by
  unfold portSideCheck
  rw [if_neg (by simp [h.1, h.2.1]), if_neg h.2.2]

/-- The port loop accumulates no error exactly when, relative to the taken
sets it starts from, every guest port and every host port is in
`range(1, 65535)` and not taken, and neither column repeats a port. -/
theorem pfwdLoop_eq_nil_iff :
    ∀ (ls : List PyVal) (vt ht : List Int),
      (∀ l ∈ ls, entryShape l = true) →
      (pfwdLoop ls vt ht = [] ↔
        ((∀ p ∈ vportsOf ls, (1 ≤ p ∧ p < 65535) ∧ p ∉ vt)
          ∧ (vportsOf ls).Nodup
          ∧ (∀ p ∈ hportsOf ls, (1 ≤ p ∧ p < 65535) ∧ p ∉ ht)
          ∧ (hportsOf ls).Nodup)) := by
  intro ls
  induction ls with
  | nil => intro vt ht _; simp [pfwdLoop, vportsOf, hportsOf]
  | cons l rest ih =>
    intro vt ht hshape
    obtain ⟨v, h2, rfl, hv, hh⟩ := entryShape_inv (hshape l (List.mem_cons_self l rest))
    have hrest : ∀ l ∈ rest, entryShape l = true :=
      fun l hl => hshape l (List.mem_cons_of_mem _ hl)
    have hvports : vportsOf (PyVal.vlist [v, h2] :: rest) = pyToInt v :: vportsOf rest := rfl
    have hhports : hportsOf (PyVal.vlist [v, h2] :: rest) = pyToInt h2 :: hportsOf rest := rfl
    rw [hvports, hhports]
    constructor
    · intro hnil
      rw [pfwdLoop] at hnil
      simp only [List.append_eq_nil] at hnil
      obtain ⟨⟨hrv, hrh⟩, hrec⟩ := hnil
      have hcv := (portSideCheck_fst_eq_nil_iff true v vt).mp hrv
      have hch := (portSideCheck_fst_eq_nil_iff false h2 ht).mp hrh
      have hrv2 : (portSideCheck true v vt).2 = pyToInt v :: vt := by
        rw [portSideCheck_pass true v vt hcv]
      have hrh2 : (portSideCheck false h2 ht).2 = pyToInt h2 :: ht := by
        rw [portSideCheck_pass false h2 ht hch]
      rw [hrv2, hrh2] at hrec
      obtain ⟨hv1, hv2, hh1, hh2⟩ := (ih (pyToInt v :: vt) (pyToInt h2 :: ht) hrest).mp hrec
      refine ⟨?_, ?_, ?_, ?_⟩
      · intro p hp
        rcases List.mem_cons.mp hp with rfl | hp2
        · exact ⟨⟨hcv.1, hcv.2.1⟩, hcv.2.2⟩
        · obtain ⟨hr, hm⟩ := hv1 p hp2
          exact ⟨hr, fun hx => hm (List.mem_cons_of_mem _ hx)⟩
      · rw [List.nodup_cons]
        refine ⟨fun hx => ?_, hv2⟩
        exact (hv1 _ hx).2 (List.mem_cons_self _ _)
      · intro p hp
        rcases List.mem_cons.mp hp with rfl | hp2
        · exact ⟨⟨hch.1, hch.2.1⟩, hch.2.2⟩
        · obtain ⟨hr, hm⟩ := hh1 p hp2
          exact ⟨hr, fun hx => hm (List.mem_cons_of_mem _ hx)⟩
      · rw [List.nodup_cons]
        refine ⟨fun hx => ?_, hh2⟩
        exact (hh1 _ hx).2 (List.mem_cons_self _ _)
    · rintro ⟨hv1, hv2, hh1, hh2⟩
      obtain ⟨⟨hvr, hvm⟩, hvrest⟩ :
          ((1 ≤ pyToInt v ∧ pyToInt v < 65535) ∧ pyToInt v ∉ vt)
            ∧ ∀ p ∈ vportsOf rest, (1 ≤ p ∧ p < 65535) ∧ p ∉ vt := by
        refine ⟨hv1 _ (List.mem_cons_self _ _), fun p hp => hv1 p (List.mem_cons_of_mem _ hp)⟩
      obtain ⟨⟨hhr, hhm⟩, hhrest⟩ :
          ((1 ≤ pyToInt h2 ∧ pyToInt h2 < 65535) ∧ pyToInt h2 ∉ ht)
            ∧ ∀ p ∈ hportsOf rest, (1 ≤ p ∧ p < 65535) ∧ p ∉ ht := by
        refine ⟨hh1 _ (List.mem_cons_self _ _), fun p hp => hh1 p (List.mem_cons_of_mem _ hp)⟩
      rw [List.nodup_cons] at hv2 hh2
      rw [pfwdLoop]
      rw [portSideCheck_pass true v vt ⟨hvr.1, hvr.2, hvm⟩,
        portSideCheck_pass false h2 ht ⟨hhr.1, hhr.2, hhm⟩]
      simp only [List.nil_append]
      rw [ih (pyToInt v :: vt) (pyToInt h2 :: ht) hrest]
      refine ⟨?_, hv2.2, ?_, hh2.2⟩
      · intro p hp
        refine ⟨(hvrest p hp).1, ?_⟩
        rw [List.mem_cons]
        rintro (rfl | hx)
        · exact hv2.1 hp
        · exact (hvrest p hp).2 hx
      · intro p hp
        refine ⟨(hhrest p hp).1, ?_⟩
        rw [List.mem_cons]
        rintro (rfl | hx)
        · exact hh2.1 hp
        · exact (hhrest p hp).2 hx

/-- The whole `portfwd` block accumulates no error exactly when the
(code-implemented) acceptance condition holds. -/
theorem portfwdStep_ok_nil_iff (d : PyDict) :
    portfwdStep d = Except.ok [] ↔ amendedPortfwdAccepts d.portfwd := by
  cases hp : d.portfwd with
  | none => simp [portfwdStep, hp, amendedPortfwdAccepts]
  | some v =>
    cases v with
    | vlist ls =>
      cases hs : pfwdShapeCheck ls with
      | error e =>
        simp only [portfwdStep, hp, hs, amendedPortfwdAccepts]
        constructor
        · intro hcontra; exact Except.noConfusion hcontra
        · rintro ⟨hall, _⟩
          exact absurd ((pfwdShapeCheck_ok_true_iff ls).mpr hall) (by simp [hs])
      | ok b =>
        cases b with
        | true =>
          have hall := (pfwdShapeCheck_ok_true_iff ls).mp hs
          simp only [portfwdStep, hp, hs, amendedPortfwdAccepts]
          rw [show (Except.ok (pfwdLoop ls [22] [22]) :
              Except PyError (List String)) = Except.ok []
              ↔ pfwdLoop ls [22] [22] = [] by simp]
          rw [pfwdLoop_eq_nil_iff ls [22] [22] hall]
          constructor
          · rintro ⟨h1, h2, h3, h4⟩
            refine ⟨hall, fun p hp2 => ?_, h2, fun p hp2 => ?_, h4⟩
            · obtain ⟨⟨ha, hb⟩, hc⟩ := h1 p hp2
              refine ⟨ha, by omega, ?_⟩
              intro hq; exact hc (by simp [hq])
            · obtain ⟨⟨ha, hb⟩, hc⟩ := h3 p hp2
              refine ⟨ha, by omega, ?_⟩
              intro hq; exact hc (by simp [hq])
          · rintro ⟨_, h1, h2, h3, h4⟩
            refine ⟨fun p hp2 => ?_, h2, fun p hp2 => ?_, h4⟩
            · obtain ⟨ha, hb, hc⟩ := h1 p hp2
              exact ⟨⟨ha, by omega⟩, by simp [hc]⟩
            · obtain ⟨ha, hb, hc⟩ := h3 p hp2
              exact ⟨⟨ha, by omega⟩, by simp [hc]⟩
        | false =>
          have hnall : ¬ ∀ l ∈ ls, entryShape l = true := by
            intro hall
            exact absurd ((pfwdShapeCheck_ok_true_iff ls).mpr hall) (by simp [hs])
          simp only [portfwdStep, hp, hs, amendedPortfwdAccepts]
          constructor
          · intro hcontra; simp at hcontra
          · rintro ⟨hall, _⟩; exact absurd hall hnall
    | vnone => simp [portfwdStep, hp, amendedPortfwdAccepts]
    | vbool b => simp [portfwdStep, hp, amendedPortfwdAccepts]
    | vint n => simp [portfwdStep, hp, amendedPortfwdAccepts]
    | vstr s => simp [portfwdStep, hp, amendedPortfwdAccepts]
    | vdict es => simp [portfwdStep, hp, amendedPortfwdAccepts]

/-- Claim C4 fails on the code at the upper boundary: the pair `(3, 65535)`
satisfies every rule the claim states (both ports in [1, 65535], neither 22,
no repetitions), yet construction rejects it — `vport not in
range(1, 65535)` excludes 65535, producing the invalid-port error. -/
theorem portfwd_claim_counterexample :
    claimPortfwdAccepts [PyVal.vlist [PyVal.vint 3, PyVal.vint 65535]]
      ∧ parseConfig d65535
          = Except.error (PyError.invalidConfig [("Invalid port '65535'.")]) := by
  constructor
  · unfold claimPortfwdAccepts
    refine ⟨by decide, by decide, by decide, by decide, by decide⟩
  · rfl

/-- Claim C4 as amended: on a manifest whose other fields validate,
construction succeeds exactly when the `portfwd` value is absent or is a
list of two-int pairs whose guest and host ports lie in [1, 65534], avoid
22, and repeat in neither column ([1, 65534] because Python
`range(1, 65535)` excludes 65535); any violating pair contributes a
validation error, making the error list nonempty. -/
theorem portfwd_validation_amended (d : PyDict)
    (hleg : legacyStep d = Except.ok d)
    (harch : archErrors d = []) (hhost : hostnameStep d = Except.ok [])
    (hmem : memoryErrors d = []) (hhdd : hddmaxsizeErrors d = [])
    (hpwd : passwordErrors d = []) :
    (∃ c, parseConfig d = Except.ok c) ↔ amendedPortfwdAccepts d.portfwd := by
  rw [← portfwdStep_ok_nil_iff]
  have h1 : parseConfig d = parseValidated d := by
    unfold parseConfig; rw [hleg]
  have h2 : parseValidated d
      = (portfwdStep d).bind (fun e5 => validatedResult d [] e5) := by
    unfold parseValidated; rw [hhost]; rfl
  rw [h1, h2]
  constructor
  · rintro ⟨c, hc⟩
    cases h5 : portfwdStep d with
    | error e => rw [h5] at hc; exact Except.noConfusion hc
    | ok e5 =>
      rw [h5] at hc
      simp only [Except.bind] at hc
      obtain ⟨_, _, _, _, he5, _, _⟩ := validatedResult_ok_inv hc
      rw [← he5]
  · intro h5
    rw [h5]
    refine ⟨buildConfig d, ?_⟩
    simp only [Except.bind]
    unfold validatedResult
    rw [if_pos (by simp [harch, hmem, hhdd, hpwd])]

/-- Witness for the amended claim C4: the single forward `(3, 80)` obeys the
amended rules and the probe manifest is accepted. -/
theorem portfwd_validation_amended_witness :
    ∃ c, parseConfig (pfwdProbe (some (PyVal.vlist
      [PyVal.vlist [PyVal.vint 3, PyVal.vint 80]]))) = Except.ok c := by
  refine (portfwd_validation_amended (pfwdProbe (some (PyVal.vlist
    [PyVal.vlist [PyVal.vint 3, PyVal.vint 80]]))) rfl rfl rfl rfl rfl rfl).mpr ?_
  show amendedPortfwdAccepts (some (PyVal.vlist
    [PyVal.vlist [PyVal.vint 3, PyVal.vint 80]]))
  unfold amendedPortfwdAccepts
  refine ⟨by decide, by decide, by decide, by decide, by decide⟩

/-- The `arch` block accumulates nothing exactly for a present, supported
architecture. -/
theorem archErrors_eq_nil {d : PyDict} :
    archErrors d = [] ↔ ∃ a, d.arch = some a ∧ archValid a = true := by
  cases ha : d.arch with
  | none => simp [archErrors, ha]
  | some a =>
    by_cases hv : archValid a = true
    · simp [archErrors, ha, hv]
    · have hv' : archValid a = false := by simpa using hv
      simp [archErrors, ha, hv']

/-- The `memory` block accumulates nothing exactly for a present int-like
value. -/
theorem memoryErrors_eq_nil {d : PyDict} :
    memoryErrors d = [] ↔ ∃ v, d.memory = some v ∧ pyIsInt v = true := by
  cases hm : d.memory with
  | none => simp [memoryErrors, hm]
  | some v =>
    by_cases hi : pyIsInt v = true
    · simp [memoryErrors, hm, hi]
    · have hi' : pyIsInt v = false := by simpa using hi
      simp [memoryErrors, hm, hi']

/-- The `hddmaxsize` block accumulates nothing exactly for a present
int-like value. -/
theorem hddmaxsizeErrors_eq_nil {d : PyDict} :
    hddmaxsizeErrors d = [] ↔ ∃ v, d.hddmaxsize = some v ∧ pyIsInt v = true := by
  cases hm : d.hddmaxsize with
  | none => simp [hddmaxsizeErrors, hm]
  | some v =>
    by_cases hi : pyIsInt v = true
    · simp [hddmaxsizeErrors, hm, hi]
    · have hi' : pyIsInt v = false := by simpa using hi
      simp [hddmaxsizeErrors, hm, hi']

/-- The `password` block accumulates nothing exactly for a present string
value. -/
theorem passwordErrors_eq_nil {d : PyDict} :
    passwordErrors d = [] ↔ ∃ s, d.password = some (PyVal.vstr s) := by
  cases hp : d.password with
  | none => simp [passwordErrors, hp]
  | some v => cases v <;> simp [passwordErrors, hp, pyIsStr]

/-- The `hostname` block runs without exception and without error exactly
for a present string matching the hostname pattern. -/
theorem hostnameStep_ok_nil {d : PyDict} :
    hostnameStep d = Except.ok []
      ↔ ∃ s, d.hostname = some (PyVal.vstr s) ∧ hostnameMatch s = true := by
  cases hh : d.hostname with
  | none => simp [hostnameStep, hh]
  | some v =>
    cases v with
    | vstr s =>
      by_cases hm : hostnameMatch s = true
      · simp [hostnameStep, hh, hm]
      · have hm' : hostnameMatch s = false := by simpa using hm
        simp [hostnameStep, hh, hm']
    | vnone => simp [hostnameStep, hh]
    | vbool b => simp [hostnameStep, hh]
    | vint n => simp [hostnameStep, hh]
    | vlist xs => simp [hostnameStep, hh]
    | vdict es => simp [hostnameStep, hh]

/-- A truthy left operand short-circuits `or`. -/
theorem pyOr_of_truthy (a b : PyVal) (h : pyTruthy a = true) : pyOr a b = a := by
  simp [pyOr, h]

/-- A list value `or`ed with `[]` is itself (an empty list is falsy, but the
default is the same empty list). -/
theorem pyOr_vlist (ls : List PyVal) :
    pyOr (PyVal.vlist ls) (PyVal.vlist []) = PyVal.vlist ls := by
  cases ls <;> simp [pyOr, pyTruthy]

/-- A matching hostname is a nonempty string, hence truthy. -/
theorem hostnameMatch_truthy {s : String} (h : hostnameMatch s = true) :
    pyTruthy (PyVal.vstr s) = true := by
  cases he : s.isEmpty with
  | false => simp [pyTruthy, he]
  | true =>
    exfalso
    have hs : s = "" := (String.isEmpty_iff s).mp he
    subst hs
    simp [hostnameMatch] at h

/-- The empty forward list satisfies the implemented `portfwd` condition. -/
theorem amendedPortfwdAccepts_nil :
    amendedPortfwdAccepts (some (PyVal.vlist [])) := by
  unfold amendedPortfwdAccepts
  simp [vportsOf, hportsOf]

/-- Claim C6: parsing the `to_dict` image of any accepted configuration
succeeds and rebuilds the very same configuration object, so its `to_dict`
output is a fixed point of parse-then-`to_dict` (legacy-flagged
configurations included: `__legacy` is emitted and re-read faithfully). -/
theorem toDict_roundtrip (d : PyDict) (c : ContainerConfig)
    (h : parseConfig d = Except.ok c) :
    parseConfig (ContainerConfig.toDict c) = Except.ok c := by
  obtain ⟨d2, hleg, hval⟩ := parseConfig_ok_inv h
  obtain ⟨e2, e5, hhost, hpf, hres⟩ := parseValidated_ok_inv hval
  obtain ⟨harch, he2, hmem, hhdd, he5, hpwd, hc⟩ := validatedResult_ok_inv hres
  subst he2
  subst he5
  obtain ⟨a, ha, hav⟩ := archErrors_eq_nil.mp harch
  obtain ⟨s, hsv, hsm⟩ := hostnameStep_ok_nil.mp hhost
  obtain ⟨mv, hmv, hmvi⟩ := memoryErrors_eq_nil.mp hmem
  obtain ⟨hdv, hhv, hhvi⟩ := hddmaxsizeErrors_eq_nil.mp hhdd
  obtain ⟨pw, hpw⟩ := passwordErrors_eq_nil.mp hpwd
  have hamend := (portfwdStep_ok_nil_iff d2).mp hpf
  have hcarch : c.arch = a := by
    have := congrArg ContainerConfig.arch hc
    simpa [buildConfig, ha] using this
  have hchost : c.hostname = PyVal.vstr s := by
    have := congrArg ContainerConfig.hostname hc
    rw [this]
    show pyOr (d2.hostname.getD PyVal.vnone) (PyVal.vstr ("debian")) = PyVal.vstr s
    rw [hsv]
    exact pyOr_of_truthy _ _ (hostnameMatch_truthy hsm)
  have hcmem : c.memory = mv := by
    have := congrArg ContainerConfig.memory hc
    simpa [buildConfig, hmv] using this
  have hchdd : c.hddmaxsize = hdv := by
    have := congrArg ContainerConfig.hddmaxsize hc
    simpa [buildConfig, hhv] using this
  have hcpwd : c.password = PyVal.vstr pw := by
    have := congrArg ContainerConfig.password hc
    simpa [buildConfig, hpw] using this
  have hcuser : c.username = ("root") := by
    have := congrArg ContainerConfig.username hc
    simpa [buildConfig] using this
  have hcpf : ∃ ls, c.portfwd = PyVal.vlist ls
      ∧ amendedPortfwdAccepts (some (PyVal.vlist ls)) := by
    have hpfc := congrArg ContainerConfig.portfwd hc
    cases hp2 : d2.portfwd with
    | none =>
      refine ⟨[], ?_, amendedPortfwdAccepts_nil⟩
      rw [hpfc]
      show pyOr (d2.portfwd.getD PyVal.vnone) (PyVal.vlist []) = PyVal.vlist []
      rw [hp2]
      rfl
    | some v =>
      rw [hp2] at hamend
      cases v with
      | vlist ls =>
        refine ⟨ls, ?_, hamend⟩
        rw [hpfc]
        show pyOr (d2.portfwd.getD PyVal.vnone) (PyVal.vlist []) = PyVal.vlist ls
        rw [hp2]
        exact pyOr_vlist ls
      | vnone => exact absurd hamend (by simp [amendedPortfwdAccepts])
      | vbool b => exact absurd hamend (by simp [amendedPortfwdAccepts])
      | vint n => exact absurd hamend (by simp [amendedPortfwdAccepts])
      | vstr t => exact absurd hamend (by simp [amendedPortfwdAccepts])
      | vdict es => exact absurd hamend (by simp [amendedPortfwdAccepts])
  obtain ⟨ls, hcls, hlsok⟩ := hcpf
  have hstep1 : legacyStep (ContainerConfig.toDict c)
      = Except.ok (ContainerConfig.toDict c) := rfl
  have hhn : (ContainerConfig.toDict c).hostname = some (PyVal.vstr s) := by
    rw [show (ContainerConfig.toDict c).hostname = some c.hostname from rfl, hchost]
  have hstep2 : hostnameStep (ContainerConfig.toDict c) = Except.ok [] := by
    simp [hostnameStep, hhn, hsm]
  have hstep5 : portfwdStep (ContainerConfig.toDict c) = Except.ok [] := by
    rw [portfwdStep_ok_nil_iff]
    rw [show (ContainerConfig.toDict c).portfwd = some c.portfwd from rfl, hcls]
    exact hlsok
  have harch2 : archErrors (ContainerConfig.toDict c) = [] := by
    refine archErrors_eq_nil.mpr ⟨a, ?_, hav⟩
    rw [show (ContainerConfig.toDict c).arch = some c.arch from rfl, hcarch]
  have hmem2 : memoryErrors (ContainerConfig.toDict c) = [] := by
    refine memoryErrors_eq_nil.mpr ⟨mv, ?_, hmvi⟩
    rw [show (ContainerConfig.toDict c).memory = some c.memory from rfl, hcmem]
  have hhdd2 : hddmaxsizeErrors (ContainerConfig.toDict c) = [] := by
    refine hddmaxsizeErrors_eq_nil.mpr ⟨hdv, ?_, hhvi⟩
    rw [show (ContainerConfig.toDict c).hddmaxsize = some c.hddmaxsize from rfl, hchdd]
  have hpwd2 : passwordErrors (ContainerConfig.toDict c) = [] := by
    refine passwordErrors_eq_nil.mpr ⟨pw, ?_⟩
    rw [show (ContainerConfig.toDict c).password = some c.password from rfl, hcpwd]
  have hbuild : buildConfig (ContainerConfig.toDict c) = c := by
    obtain ⟨ca, cmem, chdd, chn, cun, cpw, cpf, cleg⟩ := c
    unfold buildConfig
    simp only [ContainerConfig.mk.injEq]
    refine ⟨rfl, rfl, rfl, ?_, ?_, rfl, ?_, ?_⟩
    · show pyOr ((some chn).getD PyVal.vnone) (PyVal.vstr ("debian")) = chn
      rw [show chn = PyVal.vstr s from hchost]
      exact pyOr_of_truthy _ _ (hostnameMatch_truthy hsm)
    · exact hcuser.symm
    · show pyOr ((some cpf).getD PyVal.vnone) (PyVal.vlist []) = cpf
      rw [show cpf = PyVal.vlist ls from hcls]
      exact pyOr_vlist ls
    · cases cleg <;> rfl
  unfold parseConfig
  rw [hstep1]
  show parseValidated (ContainerConfig.toDict c) = Except.ok c
  unfold parseValidated
  rw [hstep2, hstep5]
  simp only [Except.bind]
  unfold validatedResult
  rw [if_pos (by simp [harch2, hmem2, hhdd2, hpwd2]), hbuild]

/-- Witness for claim C6 at the upgraded legacy literal: the historical
config parses (legacy-flagged), and parsing its `to_dict` output rebuilds
the same object. -/
theorem toDict_roundtrip_witness :
    parseConfig (ContainerConfig.toDict (buildConfig legacyUpgrade))
      = Except.ok (buildConfig legacyUpgrade) :=
  toDict_roundtrip dLegacyLiteral (buildConfig legacyUpgrade) rfl

end Jabberwocky
